import Mathlib

/-!
Shallow embedding of the `thumbnail_server` Rust service
(`src/thumbnail_server/src/main.rs`) and proofs about its handlers.

The embedding models:
 - the filesystem blob store (`images/{id}.jpg`, `images/{id}_thumb.jpg`)
   as a finite map from path strings to byte lists;
 - the SQLite `images(id, tags)` table as a list of rows plus the
   monotonic autoincrement counter;
 - SQLite `LIKE` pattern matching (default: ASCII case-insensitive,
   `%`/`_` wildcards), used by the `/search` handler;
 - the request handlers `uploader`, `get_image`, `get_thumbnail`,
   `search_images`, the blob writer `save_image`, the generator
   `make_thumbnail`, and the startup pass `fill_missing_thumbnails`.

Fallible filesystem writes are modelled by an oracle `IoEnv` saying which
write paths fail with an I/O error; the image decoding/resizing library
(out of scope for the repository) is a structure of abstract decode
functions plus a bounding-box dimension computation modelled from its
documented contract.
-/

/-- Raw blob contents: a list of byte values. -/
abbrev Bytes := List Nat

/-- The error taxonomy of the specification (§7). Handler panics in the
source abort the unit of work; they are modelled as these errors. -/
inductive Err where
  | NotFound
  | AlreadyExists
  | DecodeError
  | IoError
  | MalformedRequest
deriving DecidableEq, Repr

/-- The blob store: a finite map from path strings to blob bytes,
newest entry first (a later write shadows an earlier one). -/
structure FS where
  entries : List (String × Bytes)
deriving DecidableEq, Repr

/-- Lookup in the path map, newest entry first. -/
def readEntries : List (String × Bytes) → String → Option Bytes
  | [], _ => none
  | (p, b) :: rest, q => if q = p then some b else readEntries rest q

/-- Read the blob at a path, `none` when absent. -/
def FS.read (fs : FS) (q : String) : Option Bytes :=
  readEntries fs.entries q

/-- `std::path::Path::exists`: does a blob exist at the path? -/
def FS.pathExists (fs : FS) (p : String) : Bool :=
  (fs.read p).isSome

/-- `tokio::fs::write` / `std::fs::write`: store bytes at a path. -/
def FS.write (fs : FS) (p : String) (b : Bytes) : FS :=
  ⟨(p, b) :: fs.entries⟩

/-- Oracle deciding which filesystem writes fail with an I/O error
(models the fallibility of `fs::write` and `DynamicImage::save`). -/
structure IoEnv where
  writeFails : String → Bool

/-- One row of the `images` table. -/
structure ImageRecord where
  id : Int
  tags : String
deriving DecidableEq, Repr

/-- The `images` SQLite table: rows in insertion order plus the
database-assigned monotonic next id. -/
structure DB where
  nextId : Int
  rows : List ImageRecord
deriving DecidableEq, Repr

/-- `format!("images/{id}.jpg")`: path of the original blob for `id`. -/
def imagePath (id : Int) : String :=
  "images/" ++ toString id ++ ".jpg"

/-- `format!("images/{id}_thumb.jpg")`: path of the thumbnail blob. -/
def thumbPath (id : Int) : String :=
  "images/" ++ toString id ++ "_thumb.jpg"

/-- `INSERT INTO images (tags) VALUES (?) RETURNING id`: appends a row
with the next monotonic id and returns that id with the new table. -/
def insert_image_into_database (db : DB) (tags : String) : Int × DB :=
  (db.nextId, ⟨db.nextId + 1, db.rows ++ [⟨db.nextId, tags⟩]⟩)

/-- SQLite default `LIKE` folds the 26 ASCII letters to lower case. -/
def asciiLowerChar (c : Char) : Char :=
  if 'A' ≤ c ∧ c ≤ 'Z' then Char.ofNat (c.toNat + 32) else c

/-- Character comparison used by SQLite `LIKE`: ASCII case-insensitive. -/
def likeCharEq (p c : Char) : Bool :=
  asciiLowerChar p == asciiLowerChar c

/-- SQLite `LIKE` pattern matching: `%` matches any (possibly empty)
character sequence — the rest of the pattern is tried against every
suffix of the string — `_` matches exactly one character, and any other
pattern character matches ASCII case-insensitively. -/
def likeMatch : List Char → List Char → Bool
  | [], s => s.isEmpty
  | p :: ps, s =>
    if p = '%' then
      (List.range (s.length + 1)).any (fun k => likeMatch ps (s.drop k))
    else
      match s with
      | [] => false
      | c :: cs => (p = '_' || likeCharEq p c) && likeMatch ps cs

/-- `tags LIKE pattern` on strings. -/
def sqlLike (pattern s : String) : Bool :=
  likeMatch pattern.data s.data

/-- Row comparison used by `ORDER BY id`. -/
def recLE (a b : ImageRecord) : Prop :=
  a.id ≤ b.id

instance : DecidableRel recLE := fun a b => inferInstanceAs (Decidable (a.id ≤ b.id))

instance : IsTotal ImageRecord recLE := ⟨fun a b => Int.le_total a.id b.id⟩

instance : IsTrans ImageRecord recLE := ⟨fun _ _ _ hab hbc => Int.le_trans hab hbc⟩

/-- `SELECT id, tags FROM images WHERE tags LIKE ? ORDER BY id` with the
bound pattern `%{form.tags}%`: the rows whose tags match, by id. -/
def search_query (db : DB) (tags : String) : List ImageRecord :=
  List.insertionSort recLE
    (db.rows.filter (fun r => sqlLike ("%" ++ tags ++ "%") r.tags))

/-- The `<a href=..><img src=..></a><br />` link pushed for one row. -/
def recordLink (r : ImageRecord) : String :=
  "<a href=\"/image/" ++ toString r.id ++ "\"><img src='/thumb/" ++
    toString r.id ++ "' /></a><br />"

/-- The `results` string the `search_images` handler builds: one link per
matching record, in query order. -/
def search_results (db : DB) (tags : String) : String :=
  String.join ((search_query db tags).map recordLink)

/-- Case-sensitive prefix test on character lists. -/
def beginsWith : List Char → List Char → Bool
  | [], _ => true
  | _ :: _, [] => false
  | p :: ps, c :: cs => p == c && beginsWith ps cs

/-- Case-sensitive literal substring containment on character lists. -/
def containsSub (needle : List Char) : List Char → Bool
  | [] => beginsWith needle []
  | c :: cs => beginsWith needle (c :: cs) || containsSub needle cs

/-- `s` contains `sub` as a case-sensitive literal substring. -/
def strContainsSub (sub s : String) : Bool :=
  containsSub sub.data s.data

/-- Is the byte a UTF-8 continuation byte (`0x80..0xBF`)? -/
def isContByte (n : Nat) : Bool :=
  0x80 ≤ n && n ≤ 0xBF

/-- Strict UTF-8 decoding of a byte list to characters, as
`String::from_utf8` performs it: rejects truncated sequences, stray
continuation bytes, overlong encodings, surrogates and values above
`0x10FFFF`. -/
def utf8DecodeChars : List Nat → Option (List Char)
  | [] => some []
  | b :: rest =>
    if b < 0x80 then
      (utf8DecodeChars rest).map (Char.ofNat b :: ·)
    else if 0xC2 ≤ b ∧ b ≤ 0xDF then
      match rest with
      | c1 :: rest2 =>
        if isContByte c1 then
          (utf8DecodeChars rest2).map
            (Char.ofNat ((b - 0xC0) * 64 + (c1 - 0x80)) :: ·)
        else none
      | [] => none
    else if 0xE0 ≤ b ∧ b ≤ 0xEF then
      match rest with
      | c1 :: c2 :: rest3 =>
        let lo1 := if b = 0xE0 then 0xA0 else 0x80
        let hi1 := if b = 0xED then 0x9F else 0xBF
        if lo1 ≤ c1 ∧ c1 ≤ hi1 ∧ isContByte c2 then
          (utf8DecodeChars rest3).map
            (Char.ofNat ((b - 0xE0) * 4096 + (c1 - 0x80) * 64 + (c2 - 0x80)) :: ·)
        else none
      | _ => none
    else if 0xF0 ≤ b ∧ b ≤ 0xF4 then
      match rest with
      | c1 :: c2 :: c3 :: rest4 =>
        let lo1 := if b = 0xF0 then 0x90 else 0x80
        let hi1 := if b = 0xF4 then 0x8F else 0xBF
        if lo1 ≤ c1 ∧ c1 ≤ hi1 ∧ isContByte c2 ∧ isContByte c3 then
          (utf8DecodeChars rest4).map
            (Char.ofNat ((b - 0xF0) * 262144 + (c1 - 0x80) * 4096 +
              (c2 - 0x80) * 64 + (c3 - 0x80)) :: ·)
        else none
      | _ => none
    else none

/-- `String::from_utf8(data.to_vec())` on a byte list. -/
def utf8Decode (b : Bytes) : Option String :=
  (utf8DecodeChars b).map fun cs => ⟨cs⟩

/-- One multipart field: its form name and its raw bytes. -/
structure FormPart where
  name : String
  data : Bytes
deriving DecidableEq, Repr

/-- The field loop of `uploader`: folds over the multipart fields,
recording the `tags` text and the `image` bytes. `none` models the
panics inside the loop: an unknown field name, or `tags` bytes that are
not valid UTF-8. A repeated field overwrites the earlier value. -/
def readParts : List FormPart → Option String × Option Bytes → Option (Option String × Option Bytes)
  | [], acc => some acc
  | part :: rest, (tags, image) =>
    if part.name = "tags" then
      match utf8Decode part.data with
      | some s => readParts rest (some s, image)
      | none => none
    else if part.name = "image" then
      readParts rest (tags, some part.data)
    else none

/-- `save_image`: writes the original blob for `id`, failing with
`AlreadyExists` when a blob is already at that path (the blob is left
untouched) and with `IoError` when the oracle fails the write. The
`images` directory creation is implicit in the flat path map. -/
def save_image (env : IoEnv) (id : Int) (bytes : Bytes) (fs : FS) : Except Err Unit × FS :=
  let image_path := imagePath id
  if fs.pathExists image_path then
    (.error .AlreadyExists, fs)
  else if env.writeFails image_path then
    (.error .IoError, fs)
  else
    (.ok (), fs.write image_path bytes)

/-- What one call of the `uploader` handler leaves behind: the request
result (errors model the handler's panics), the database and filesystem
afterwards, and the ids whose thumbnail generation was spawned
fire-and-forget (not yet run). -/
structure UploadOutcome where
  result : Except Err Unit
  db : DB
  fs : FS
  scheduled : List Int
deriving Repr

/-- The `uploader` handler: reads the multipart fields; on a missing
`tags` or `image` field panics (`MalformedRequest`); otherwise inserts
the row, then writes the original blob, then spawns thumbnail
generation. A blob-write failure panics after the row is inserted. -/
def uploader (env : IoEnv) (parts : List FormPart) (db : DB) (fs : FS) : UploadOutcome :=
  match readParts parts (none, none) with
  | none => ⟨.error .MalformedRequest, db, fs, []⟩
  | some (some tags, some image) =>
    let inserted := insert_image_into_database db tags
    let new_image_id := inserted.1
    let db2 := inserted.2
    match save_image env new_image_id image fs with
    | (.ok _, fs2) => ⟨.ok (), db2, fs2, [new_image_id]⟩
    | (.error e, fs2) => ⟨.error e, db2, fs2, []⟩
  | some _ => ⟨.error .MalformedRequest, db, fs, []⟩

/-- The parts of an HTTP response the fetch handlers build. -/
structure HttpResponse where
  contentType : String
  contentDisposition : String
  body : Bytes
deriving DecidableEq, Repr

/-- The whole server-side state a handler can reach: the database pool
extension and the filesystem. -/
structure ServerState where
  db : DB
  fs : FS
deriving Repr

/-- `GET /image/:id`: builds `image/jpeg` headers with
`filename=images/{id}.jpg` and streams that file; the `File::open`
unwrap on a missing file aborts the request (`NotFound`). -/
def get_image (s : ServerState) (id : Int) : Except Err HttpResponse :=
  let filename := imagePath id
  let attachment := "filename=" ++ filename
  match s.fs.read filename with
  | none => .error .NotFound
  | some bytes => .ok ⟨"image/jpeg", attachment, bytes⟩

/-- `GET /thumb/:id`: same as `get_image` over `images/{id}_thumb.jpg`. -/
def get_thumbnail (s : ServerState) (id : Int) : Except Err HttpResponse :=
  let filename := thumbPath id
  let attachment := "filename=" ++ filename
  match s.fs.read filename with
  | none => .error .NotFound
  | some bytes => .ok ⟨"image/jpeg", attachment, bytes⟩

/-- An image format the `image` crate can detect. -/
inductive ImageFormat where
  | png
  | jpeg
  | gif
  | webp
  | bmp
  | other
deriving DecidableEq, Repr

/-- A decoded image: its pixel dimensions, with the pixel contents
abstracted into an opaque payload. -/
structure Img where
  width : Nat
  height : Nat
  data : Nat
deriving DecidableEq, Repr

/-- Modelled from the spec: the image decoding/encoding library is out of
scope ("used verbatim as a black box"), so its content-sniffing and
decoding entry points (`image::guess_format`,
`image::load_from_memory_with_format`, `image::load_from_memory`) and the
encoder behind `DynamicImage::save` are abstract functions. -/
structure ImageLib where
  guess_format : Bytes → Option ImageFormat
  load_from_memory_with_format : Bytes → ImageFormat → Option Img
  load_from_memory : Bytes → Option Img
  encode : Img → Bytes

/-- Modelled from the spec: the library's bounding-box fit
(`DynamicImage::thumbnail`'s dimension computation, out of scope as
source): scale both dimensions by the smaller of the two bound ratios
`bw / w` and `bh / h`, preserving aspect ratio, rounding to nearest
(half up, in exact arithmetic: `round (a / b) = (2 * a + b) / (2 * b)`)
and never below 1. -/
def resize_dimensions (w h bw bh : Nat) : Nat × Nat :=
  if w = 0 ∨ h = 0 then (1, 1)
  else if bw * h ≤ bh * w then
    (max bw 1, max ((2 * h * bw + w) / (2 * w)) 1)
  else
    (max ((2 * w * bh + h) / (2 * h)) 1, max bh 1)

/-- Modelled from the spec: `image.thumbnail(100, 100)` — resize into the
100×100 bounding box preserving aspect ratio; resampled pixel contents
stay abstract. -/
def imgThumbnail (img : Img) : Img :=
  let dims := resize_dimensions img.width img.height 100 100
  ⟨dims.1, dims.2, img.data⟩

/-- The decode step of `make_thumbnail`: decode with the format guessed
from the content; only when the guess itself fails, fall back to the
secondary detection of `load_from_memory` (a decode failure after a
successful guess is not retried). -/
def decodeImage (lib : ImageLib) (image_bytes : Bytes) : Option Img :=
  match lib.guess_format image_bytes with
  | some format => lib.load_from_memory_with_format image_bytes format
  | none => lib.load_from_memory image_bytes

/-- `make_thumbnail`: read the original blob, decode it, resize into the
100×100 box, and save the result as the thumbnail blob for `id`. -/
def make_thumbnail (env : IoEnv) (lib : ImageLib) (id : Int) (fs : FS) : Except Err Unit × FS :=
  let image_path := imagePath id
  let thumbnail_path := thumbPath id
  match fs.read image_path with
  | none => (.error .NotFound, fs)
  | some image_bytes =>
    match decodeImage lib image_bytes with
    | none => (.error .DecodeError, fs)
    | some image =>
      let thumbnail := imgThumbnail image
      if env.writeFails thumbnail_path then (.error .IoError, fs)
      else (.ok (), fs.write thumbnail_path (lib.encode thumbnail))

/-- `fill_missing_thumbnails` instrumented with a ghost counter of how
many times the generator ran: iterate the ids in query order; when the
thumbnail blob is missing, run `make_thumbnail` and propagate its first
failure; otherwise skip the id. -/
def fill_missing_thumbnails_count (env : IoEnv) (lib : ImageLib) : List Int → FS → Except Err (FS × Nat)
  | [], fs => .ok (fs, 0)
  | id :: rest, fs =>
    if fs.pathExists (thumbPath id) then
      fill_missing_thumbnails_count env lib rest fs
    else
      match make_thumbnail env lib id fs with
      | (.ok _, fs2) =>
        match fill_missing_thumbnails_count env lib rest fs2 with
        | .ok (fs3, n) => .ok (fs3, n + 1)
        | .error e => .error e
      | (.error e, _) => .error e

/-- `fill_missing_thumbnails`: the startup backfill pass over all ids of
the `images` table (the ghost counter discarded). -/
def fill_missing_thumbnails (env : IoEnv) (lib : ImageLib) (ids : List Int) (fs : FS) : Except Err FS :=
  (fill_missing_thumbnails_count env lib ids fs).map Prod.fst

/-- `main` up to serving: run the backfill pass over `SELECT id FROM
images`; any failure aborts startup, success yields the state the
HTTP server starts serving from. -/
def serverMain (env : IoEnv) (lib : ImageLib) (db : DB) (fs : FS) : Except Err ServerState :=
  match fill_missing_thumbnails env lib (db.rows.map ImageRecord.id) fs with
  | .ok fs2 => .ok ⟨db, fs2⟩
  | .error e => .error e

/-! ## Shared concrete fixtures used by witnesses -/

/-- An I/O oracle under which every filesystem write succeeds. -/
def envOk : IoEnv := ⟨fun _ => false⟩

/-- A concrete decoding library: every blob sniffs as PNG and decodes to
a 200×100 image; every image encodes to the bytes `[7, 7]`. -/
def libConst : ImageLib :=
  ⟨fun _ => some .png, fun _ _ => some ⟨200, 100, 0⟩,
    fun _ => some ⟨200, 100, 0⟩, fun _ => [7, 7]⟩

/-! ## C1: search semantics -/

/-- Claim C1 fails on the code: SQLite `LIKE` is ASCII case-insensitive
by default, so `POST /search` with `tags = "CA"` lists the record whose
tags are `"cat"`, although `"cat"` does not contain `"CA"` as a
case-sensitive literal substring. -/
theorem C1_counterexample :
    search_query ⟨2, [⟨1, "cat"⟩]⟩ "CA" = [⟨1, "cat"⟩] ∧
      strContainsSub "CA" "cat" = false := by
  constructor
  · rfl
  · rfl

/-- Claim C1 (amended): the `/search` response lists exactly the records
whose tags match the SQL `LIKE` pattern `%tags%` — ASCII
case-insensitively, with `%` and `_` in the field acting as wildcards —
ordered by id ascending. -/
theorem C1_search_like_semantics (db : DB) (s : String) :
    List.Sorted recLE (search_query db s) ∧
      ∀ r : ImageRecord, r ∈ search_query db s ↔
        (r ∈ db.rows ∧ sqlLike ("%" ++ s ++ "%") r.tags = true) := by
  refine ⟨List.sorted_insertionSort recLE _, fun r => ?_⟩
  rw [search_query, List.mem_insertionSort, List.mem_filter]

/-! ## C2: malformed multipart uploads -/

/-- A field whose name is neither `tags` nor `image` makes the field
loop panic, whatever came before or after it. -/
theorem readParts_unknown_name (parts : List FormPart) (p : FormPart)
    (hp : p ∈ parts) (h1 : p.name ≠ "tags") (h2 : p.name ≠ "image") :
    ∀ acc, readParts parts acc = none := by
  induction parts with
  | nil => cases hp
  | cons q rest ih =>
    intro acc
    obtain ⟨t, i⟩ := acc
    rcases List.mem_cons.mp hp with hq | hq
    · subst hq
      simp [readParts, h1, h2]
    · by_cases hqt : q.name = "tags"
      · cases hu : utf8Decode q.data with
        | none => simp [readParts, hqt, hu]
        | some s => simp [readParts, hqt, hu, ih hq]
      · by_cases hqi : q.name = "image"
        · simp [readParts, hqt, hqi, ih hq]
        · simp [readParts, hqt, hqi]

/-- If no field is named `image`, the field loop leaves the image
accumulator untouched. -/
theorem readParts_no_image (parts : List FormPart)
    (h : ∀ p ∈ parts, p.name ≠ "image") :
    ∀ t i res, readParts parts (t, i) = some res → res.2 = i := by
  induction parts with
  | nil =>
    intro t i res hres
    simp [readParts] at hres
    simp [← hres]
  | cons q rest ih =>
    intro t i res hres
    have hq : q.name ≠ "image" := h q (List.mem_cons_self q rest)
    have hrest : ∀ p ∈ rest, p.name ≠ "image" :=
      fun p hp => h p (List.mem_cons_of_mem q hp)
    by_cases hqt : q.name = "tags"
    · cases hu : utf8Decode q.data with
      | none => simp [readParts, hqt, hu] at hres
      | some s =>
        rw [readParts, if_pos hqt, hu] at hres
        exact ih hrest _ _ _ hres
    · rw [readParts, if_neg hqt, if_neg hq] at hres
      cases hres

/-- If no field is named `tags`, the field loop leaves the tags
accumulator untouched. -/
theorem readParts_no_tags (parts : List FormPart)
    (h : ∀ p ∈ parts, p.name ≠ "tags") :
    ∀ t i res, readParts parts (t, i) = some res → res.1 = t := by
  induction parts with
  | nil =>
    intro t i res hres
    simp [readParts] at hres
    simp [← hres]
  | cons q rest ih =>
    intro t i res hres
    have hq : q.name ≠ "tags" := h q (List.mem_cons_self q rest)
    have hrest : ∀ p ∈ rest, p.name ≠ "tags" :=
      fun p hp => h p (List.mem_cons_of_mem q hp)
    by_cases hqi : q.name = "image"
    · rw [readParts, if_neg hq, if_pos hqi] at hres
      exact ih hrest _ _ _ hres
    · rw [readParts, if_neg hq, if_neg hqi] at hres
      cases hres

/-- Claim C2: a multipart body with a missing `image` part, a missing
`tags` part, or any part named something else, makes the `uploader`
handler fail the request, and no row is inserted into the `images`
table (and no blob is written, and no generation is scheduled). -/
theorem C2_upload_malformed_rejected (env : IoEnv) (parts : List FormPart)
    (db : DB) (fs : FS)
    (h : (∃ p ∈ parts, p.name ≠ "tags" ∧ p.name ≠ "image") ∨
      (∀ p ∈ parts, p.name ≠ "image") ∨ (∀ p ∈ parts, p.name ≠ "tags")) :
    (uploader env parts db fs).result = .error .MalformedRequest ∧
      (uploader env parts db fs).db = db ∧
      (uploader env parts db fs).fs = fs ∧
      (uploader env parts db fs).scheduled = [] := by
  rcases h with ⟨p, hp, h1, h2⟩ | h | h
  · rw [uploader, readParts_unknown_name parts p hp h1 h2]
    exact ⟨rfl, rfl, rfl, rfl⟩
  · rw [uploader]
    cases hres : readParts parts (none, none) with
    | none => exact ⟨rfl, rfl, rfl, rfl⟩
    | some res =>
      obtain ⟨t, i⟩ := res
      have : i = none := readParts_no_image parts h none none ⟨t, i⟩ hres
      subst this
      cases t <;> exact ⟨rfl, rfl, rfl, rfl⟩
  · rw [uploader]
    cases hres : readParts parts (none, none) with
    | none => exact ⟨rfl, rfl, rfl, rfl⟩
    | some res =>
      obtain ⟨t, i⟩ := res
      have : t = none := readParts_no_tags parts h none none ⟨t, i⟩ hres
      subst this
      cases i <;> exact ⟨rfl, rfl, rfl, rfl⟩

/-- Witness for C2: uploading with only a `tags` part (no `image` part)
fails with `MalformedRequest` and leaves the one-row database, the
filesystem and the schedule untouched. -/
theorem C2_upload_malformed_rejected_witness :
    (∀ p ∈ [(⟨"tags", [99, 97, 116]⟩ : FormPart)], p.name ≠ "image") ∧
      (uploader envOk [⟨"tags", [99, 97, 116]⟩] ⟨2, [⟨1, "cat"⟩]⟩ ⟨[]⟩).result =
        .error .MalformedRequest ∧
      (uploader envOk [⟨"tags", [99, 97, 116]⟩] ⟨2, [⟨1, "cat"⟩]⟩ ⟨[]⟩).db =
        ⟨2, [⟨1, "cat"⟩]⟩ := by
  refine ⟨by decide, ?_⟩
  have h := C2_upload_malformed_rejected envOk [⟨"tags", [99, 97, 116]⟩]
    ⟨2, [⟨1, "cat"⟩]⟩ ⟨[]⟩ (Or.inr (Or.inl (by decide)))
  exact ⟨h.1, h.2.1⟩

/-- Claim C9: on a well-formed multipart body, the row is inserted
before the blob write is attempted, so a failing blob write (collision
or I/O error) leaves the fresh row in the table while writing nothing
to the filesystem and scheduling no generation. -/
theorem C9_upload_row_before_blob (env : IoEnv) (parts : List FormPart)
    (db : DB) (fs : FS) (t : String) (i : Bytes)
    (hparts : readParts parts (none, none) = some (some t, some i))
    (hfail : fs.pathExists (imagePath db.nextId) = true ∨
      env.writeFails (imagePath db.nextId) = true) :
    (∃ e, (uploader env parts db fs).result = .error e) ∧
      (uploader env parts db fs).db.rows = db.rows ++ [⟨db.nextId, t⟩] ∧
      (uploader env parts db fs).fs = fs ∧
      (uploader env parts db fs).scheduled = [] := by
  obtain ⟨e, hsave⟩ : ∃ e, save_image env db.nextId i fs = (.error e, fs) := by
    rw [save_image]
    by_cases hex : fs.pathExists (imagePath db.nextId) = true
    · rw [if_pos hex]
      exact ⟨.AlreadyExists, rfl⟩
    · rw [if_neg hex, if_pos (hfail.resolve_left hex)]
      exact ⟨.IoError, rfl⟩
  rw [uploader, hparts]
  simp only [insert_image_into_database]
  rw [hsave]
  exact ⟨⟨e, rfl⟩, rfl, rfl, rfl⟩

/-- Witness for C9: a well-formed upload against a filesystem that
already holds `images/1.jpg` (the next id is 1) errors, yet the new row
`(1, "cat")` is in the table and the filesystem is unchanged. -/
theorem C9_upload_row_before_blob_witness :
    (∃ e, (uploader envOk [⟨"tags", [99, 97, 116]⟩, ⟨"image", [9]⟩]
        ⟨1, []⟩ ⟨[("images/1.jpg", [5])]⟩).result = .error e) ∧
      (uploader envOk [⟨"tags", [99, 97, 116]⟩, ⟨"image", [9]⟩]
        ⟨1, []⟩ ⟨[("images/1.jpg", [5])]⟩).db.rows = [⟨1, "cat"⟩] ∧
      (uploader envOk [⟨"tags", [99, 97, 116]⟩, ⟨"image", [9]⟩]
        ⟨1, []⟩ ⟨[("images/1.jpg", [5])]⟩).fs = ⟨[("images/1.jpg", [5])]⟩ := by
  have h := C9_upload_row_before_blob envOk
    [⟨"tags", [99, 97, 116]⟩, ⟨"image", [9]⟩] ⟨1, []⟩
    ⟨[("images/1.jpg", [5])]⟩ "cat" [9] (by decide) (Or.inl (by decide))
  exact ⟨h.1, h.2.1, h.2.2.1⟩

/-! ## C4/C7/C10: fetch handlers -/

/-- Claim C4 fails on the code: `GET /image/3` sets the
`Content-Disposition` value `filename=images/3.jpg` — there is no
`attachment;` directive and the value names the relative path
`images/3.jpg`, not `3.jpg`. -/
theorem C4_counterexample :
    get_image ⟨⟨1, []⟩, ⟨[("images/3.jpg", [1, 2])]⟩⟩ 3 =
        .ok ⟨"image/jpeg", "filename=images/3.jpg", [1, 2]⟩ ∧
      "filename=images/3.jpg" ≠ "attachment; filename=3.jpg" := by
  exact ⟨rfl, by decide⟩

/-- Claim C4 (amended): when the file exists, `GET /image/{id}` responds
with `Content-Type: image/jpeg` and `Content-Disposition:
filename=images/{id}.jpg`, and `GET /thumb/{id}` responds with
`Content-Type: image/jpeg` and `Content-Disposition:
filename=images/{id}_thumb.jpg`. -/
theorem C4_fetch_headers (db : DB) (fs : FS) (id : Int) (b : Bytes) :
    (fs.read (imagePath id) = some b →
      get_image ⟨db, fs⟩ id = .ok ⟨"image/jpeg", "filename=" ++ imagePath id, b⟩) ∧
      (fs.read (thumbPath id) = some b →
        get_thumbnail ⟨db, fs⟩ id = .ok ⟨"image/jpeg", "filename=" ++ thumbPath id, b⟩) := by
  constructor
  · intro h
    rw [get_image]
    simp only [h]
  · intro h
    rw [get_thumbnail]
    simp only [h]

/-- Witness for C4 (amended): with `images/3.jpg` and
`images/3_thumb.jpg` on disk, both fetch handlers answer with the
`image/jpeg` type and the `filename=images/3...jpg` disposition. -/
theorem C4_fetch_headers_witness :
    get_image ⟨⟨1, []⟩, ⟨[("images/3.jpg", [1]), ("images/3_thumb.jpg", [2])]⟩⟩ 3 =
        .ok ⟨"image/jpeg", "filename=" ++ imagePath 3, [1]⟩ ∧
      get_thumbnail ⟨⟨1, []⟩, ⟨[("images/3.jpg", [1]), ("images/3_thumb.jpg", [2])]⟩⟩ 3 =
        .ok ⟨"image/jpeg", "filename=" ++ thumbPath 3, [2]⟩ := by
  have h := C4_fetch_headers ⟨1, []⟩
    ⟨[("images/3.jpg", [1]), ("images/3_thumb.jpg", [2])]⟩ 3
  exact ⟨h [1] |>.1 (by decide), h [2] |>.2 (by decide)⟩

/-- Claim C7: with no original blob on disk, `GET /image/{id}` fails
with `NotFound`; with no thumbnail blob, `GET /thumb/{id}` fails with
`NotFound`; neither produces a successful response. -/
theorem C7_fetch_missing_notfound (db : DB) (fs : FS) (id : Int) :
    (fs.read (imagePath id) = none → get_image ⟨db, fs⟩ id = .error .NotFound) ∧
      (fs.read (thumbPath id) = none → get_thumbnail ⟨db, fs⟩ id = .error .NotFound) := by
  constructor
  · intro h
    rw [get_image]
    simp only [h]
  · intro h
    rw [get_thumbnail]
    simp only [h]

/-- Witness for C7: on an empty filesystem, both fetches of id 42 fail
with `NotFound`. -/
theorem C7_fetch_missing_notfound_witness :
    get_image ⟨⟨1, []⟩, ⟨[]⟩⟩ 42 = .error .NotFound ∧
      get_thumbnail ⟨⟨1, []⟩, ⟨[]⟩⟩ 42 = .error .NotFound := by
  have h := C7_fetch_missing_notfound ⟨1, []⟩ ⟨[]⟩ 42
  exact ⟨h.1 rfl, h.2 rfl⟩

/-- Claim C10: the fetch handlers never consult the `images` table —
swapping the database leaves their responses unchanged — and whenever
the file for the requested id exists (row or no row), they return
exactly its bytes. -/
theorem C10_fetch_ignores_record_store (db db2 : DB) (fs : FS) (id : Int) :
    get_image ⟨db, fs⟩ id = get_image ⟨db2, fs⟩ id ∧
      get_thumbnail ⟨db, fs⟩ id = get_thumbnail ⟨db2, fs⟩ id ∧
      (∀ b, fs.read (imagePath id) = some b →
        ∃ r, get_image ⟨db, fs⟩ id = .ok r ∧ r.body = b) ∧
      (∀ b, fs.read (thumbPath id) = some b →
        ∃ r, get_thumbnail ⟨db, fs⟩ id = .ok r ∧ r.body = b) := by
  refine ⟨rfl, rfl, fun b h => ?_, fun b h => ?_⟩
  · refine ⟨⟨"image/jpeg", "filename=" ++ imagePath id, b⟩, ?_, rfl⟩
    rw [get_image]
    simp only [h]
  · refine ⟨⟨"image/jpeg", "filename=" ++ thumbPath id, b⟩, ?_, rfl⟩
    rw [get_thumbnail]
    simp only [h]

/-- Witness for C10: an id (7) with no row in the table still serves
`images/7.jpg` and `images/7_thumb.jpg` from the filesystem. -/
theorem C10_fetch_ignores_record_store_witness :
    (∃ r, get_image ⟨⟨1, []⟩, ⟨[("images/7.jpg", [3]), ("images/7_thumb.jpg", [4])]⟩⟩ 7 =
      .ok r ∧ r.body = [3]) ∧
      (∃ r, get_thumbnail ⟨⟨1, []⟩, ⟨[("images/7.jpg", [3]), ("images/7_thumb.jpg", [4])]⟩⟩ 7 =
        .ok r ∧ r.body = [4]) := by
  have h := C10_fetch_ignores_record_store ⟨1, []⟩ ⟨1, []⟩
    ⟨[("images/7.jpg", [3]), ("images/7_thumb.jpg", [4])]⟩ 7
  exact ⟨h.2.2.1 [3] (by decide), h.2.2.2 [4] (by decide)⟩

/-! ## C6: save_image contract -/

/-- Claim C6: `save_image` fails with `AlreadyExists` when a blob is
already at `images/{id}.jpg`, leaving the filesystem (hence the
existing blob's bytes) unchanged; when the path is free and the write
succeeds, it stores exactly the given bytes at that path. -/
theorem C6_save_image_contract (env : IoEnv) (id : Int) (bytes : Bytes) (fs : FS) :
    (fs.pathExists (imagePath id) = true →
      save_image env id bytes fs = (.error .AlreadyExists, fs)) ∧
      (fs.pathExists (imagePath id) = false →
        env.writeFails (imagePath id) = false →
        save_image env id bytes fs = (.ok (), fs.write (imagePath id) bytes) ∧
          (fs.write (imagePath id) bytes).read (imagePath id) = some bytes) := by
  constructor
  · intro hex
    rw [save_image, if_pos hex]
  · intro hex hio
    constructor
    · rw [save_image, if_neg (by rw [hex]; exact Bool.false_ne_true),
        if_neg (by rw [hio]; exact Bool.false_ne_true)]
    · rw [FS.write, FS.read, readEntries]
      simp

/-- Witness for C6: on an empty filesystem the write stores the bytes at
`images/5.jpg`; on a filesystem already holding `images/5.jpg`, the
write fails with `AlreadyExists` and changes nothing. -/
theorem C6_save_image_contract_witness :
    save_image envOk 5 [8, 9] ⟨[]⟩ = (.ok (), FS.write ⟨[]⟩ (imagePath 5) [8, 9]) ∧
      (FS.write ⟨[]⟩ (imagePath 5) [8, 9]).read (imagePath 5) = some [8, 9] ∧
      save_image envOk 5 [8, 9] ⟨[("images/5.jpg", [1])]⟩ =
        (.error .AlreadyExists, ⟨[("images/5.jpg", [1])]⟩) := by
  have h1 := (C6_save_image_contract envOk 5 [8, 9] ⟨[]⟩).2 (by decide) rfl
  have h2 := (C6_save_image_contract envOk 5 [8, 9] ⟨[("images/5.jpg", [1])]⟩).1 (by decide)
  exact ⟨h1.1, h1.2, h2⟩

/-! ## C3/C5: the backfill pass -/

/-- Reading through a write: the written path holds the new bytes,
every other path is unchanged. -/
theorem read_write (fs : FS) (p : String) (b : Bytes) (q : String) :
    (fs.write p b).read q = if q = p then some b else fs.read q := by
  rw [FS.write, FS.read, FS.read, readEntries]

/-- A write never removes a path. -/
theorem pathExists_write_mono (fs : FS) (p : String) (b : Bytes) (q : String)
    (h : fs.pathExists q = true) : (fs.write p b).pathExists q = true := by
  rw [FS.pathExists, read_write]
  by_cases hq : q = p
  · rw [if_pos hq]
    rfl
  · rw [if_neg hq]
    exact h

/-- The written path exists afterwards. -/
theorem pathExists_write_self (fs : FS) (p : String) (b : Bytes) :
    (fs.write p b).pathExists p = true := by
  rw [FS.pathExists, read_write, if_pos rfl]
  rfl

/-- A successful `make_thumbnail` run only adds blobs, and afterwards
the thumbnail blob for its id exists. -/
theorem make_thumbnail_ok (env : IoEnv) (lib : ImageLib) (id : Int) (fs : FS)
    {u : Unit} {fs2 : FS} (h : make_thumbnail env lib id fs = (.ok u, fs2)) :
    (∀ q, fs.pathExists q = true → fs2.pathExists q = true) ∧
      fs2.pathExists (thumbPath id) = true := by
  simp only [make_thumbnail] at h
  cases hread : fs.read (imagePath id) with
  | none =>
    rw [hread] at h
    simp at h
  | some image_bytes =>
    simp only [hread] at h
    cases hdec : decodeImage lib image_bytes with
    | none =>
      simp only [hdec] at h
      simp at h
    | some image =>
      simp only [hdec] at h
      cases hw : env.writeFails (thumbPath id) with
      | true =>
        simp only [hw] at h
        simp at h
      | false =>
        simp only [hw, Bool.false_eq_true, if_false, Prod.mk.injEq] at h
        rw [← h.2]
        exact ⟨fun q hq => pathExists_write_mono fs _ _ q hq,
          pathExists_write_self fs _ _⟩

/-- After a successful backfill run, every path that existed still
exists and every enumerated id has its thumbnail blob. -/
theorem fill_count_post (env : IoEnv) (lib : ImageLib) :
    ∀ (ids : List Int) (fs fs2 : FS) (n : Nat),
      fill_missing_thumbnails_count env lib ids fs = .ok (fs2, n) →
      (∀ q, fs.pathExists q = true → fs2.pathExists q = true) ∧
        (∀ id ∈ ids, fs2.pathExists (thumbPath id) = true) := by
  intro ids
  induction ids with
  | nil =>
    intro fs fs2 n h
    rw [fill_missing_thumbnails_count] at h
    simp only [Except.ok.injEq, Prod.mk.injEq] at h
    rw [← h.1]
    exact ⟨fun q hq => hq, by simp⟩
  | cons id rest ih =>
    intro fs fs2 n h
    rw [fill_missing_thumbnails_count] at h
    by_cases hex : fs.pathExists (thumbPath id) = true
    · rw [if_pos hex] at h
      obtain ⟨hpres, hall⟩ := ih fs fs2 n h
      refine ⟨hpres, fun j hj => ?_⟩
      rcases List.mem_cons.mp hj with hj | hj
      · rw [hj]
        exact hpres _ hex
      · exact hall j hj
    · rw [if_neg hex] at h
      cases hmt : make_thumbnail env lib id fs with
      | mk res fs' =>
        simp only [hmt] at h
        cases res with
        | error e => simp at h
        | ok u =>
          cases hfill : fill_missing_thumbnails_count env lib rest fs' with
          | error e =>
            simp only [hfill] at h
            simp at h
          | ok p =>
            obtain ⟨fs3, n'⟩ := p
            simp only [hfill, Except.ok.injEq, Prod.mk.injEq] at h
            obtain ⟨hmono, hthumb⟩ := make_thumbnail_ok env lib id fs hmt
            obtain ⟨hpres, hall⟩ := ih fs' fs3 n' hfill
            rw [← h.1]
            refine ⟨fun q hq => hpres q (hmono q hq), fun j hj => ?_⟩
            rcases List.mem_cons.mp hj with hj | hj
            · rw [hj]
              exact hpres _ hthumb
            · exact hall j hj

/-- Claim C5: when every enumerated id already has its thumbnail blob
(as after one successful backfill pass), the pass runs the generator
zero times and returns the filesystem byte-identical. -/
theorem C5_backfill_idempotent (env : IoEnv) (lib : ImageLib) (ids : List Int)
    (fs : FS) (h : ∀ id ∈ ids, fs.pathExists (thumbPath id) = true) :
    fill_missing_thumbnails_count env lib ids fs = .ok (fs, 0) ∧
      fill_missing_thumbnails env lib ids fs = .ok fs := by
  have hcount : fill_missing_thumbnails_count env lib ids fs = .ok (fs, 0) := by
    induction ids with
    | nil => rfl
    | cons id rest ih =>
      rw [fill_missing_thumbnails_count, if_pos (h id (List.mem_cons_self id rest))]
      exact ih fun j hj => h j (List.mem_cons_of_mem id hj)
  refine ⟨hcount, ?_⟩
  rw [fill_missing_thumbnails, hcount]
  rfl

/-- Witness for C5: with the only id's thumbnail in place, the second
pass returns the same filesystem with a zero generation count. -/
theorem C5_backfill_idempotent_witness :
    fill_missing_thumbnails_count envOk libConst [1] ⟨[("images/1_thumb.jpg", [7, 7])]⟩ =
        .ok (⟨[("images/1_thumb.jpg", [7, 7])]⟩, 0) ∧
      fill_missing_thumbnails envOk libConst [1] ⟨[("images/1_thumb.jpg", [7, 7])]⟩ =
        .ok ⟨[("images/1_thumb.jpg", [7, 7])]⟩ :=
  C5_backfill_idempotent envOk libConst [1] ⟨[("images/1_thumb.jpg", [7, 7])]⟩ (by decide)

/-- Claim C3: the server serves only a state in which the backfill pass
has completed over all ids of the `images` table — every enumerated id
has its thumbnail blob, the table is untouched — and any backfill
failure is the startup error, so the server never starts serving. -/
theorem C3_backfill_gates_serving (env : IoEnv) (lib : ImageLib) (db : DB) (fs : FS) :
    (∀ s2, serverMain env lib db fs = .ok s2 →
      s2.db = db ∧
        ∀ id ∈ db.rows.map ImageRecord.id, s2.fs.pathExists (thumbPath id) = true) ∧
      (∀ e, fill_missing_thumbnails env lib (db.rows.map ImageRecord.id) fs = .error e →
        serverMain env lib db fs = .error e) := by
  constructor
  · intro s2 h
    rw [serverMain] at h
    cases hfill : fill_missing_thumbnails env lib (db.rows.map ImageRecord.id) fs with
    | error e =>
      rw [hfill] at h
      cases h
    | ok fs2 =>
      rw [hfill] at h
      cases h
      rw [fill_missing_thumbnails] at hfill
      cases hcount : fill_missing_thumbnails_count env lib (db.rows.map ImageRecord.id) fs with
      | error e =>
        rw [hcount] at hfill
        cases hfill
      | ok p =>
        obtain ⟨fs3, n⟩ := p
        rw [hcount] at hfill
        simp only [Except.map, Except.ok.injEq] at hfill
        rw [← hfill]
        exact ⟨rfl, (fill_count_post env lib _ fs fs3 n hcount).2⟩
  · intro e h
    rw [serverMain, h]

/-- Witness for C3: a one-row table whose only original blob is on disk
starts serving, and afterwards the thumbnail blob for id 1 exists. -/
theorem C3_backfill_gates_serving_witness :
    serverMain envOk libConst ⟨2, [⟨1, "cat"⟩]⟩ ⟨[("images/1.jpg", [5])]⟩ =
        .ok ⟨⟨2, [⟨1, "cat"⟩]⟩, FS.write ⟨[("images/1.jpg", [5])]⟩ (thumbPath 1) [7, 7]⟩ ∧
      (FS.write ⟨[("images/1.jpg", [5])]⟩ (thumbPath 1) [7, 7]).pathExists (thumbPath 1) = true := by
  refine ⟨rfl, ?_⟩
  have h := (C3_backfill_gates_serving envOk libConst ⟨2, [⟨1, "cat"⟩]⟩
    ⟨[("images/1.jpg", [5])]⟩).1
    ⟨⟨2, [⟨1, "cat"⟩]⟩, FS.write ⟨[("images/1.jpg", [5])]⟩ (thumbPath 1) [7, 7]⟩ rfl
  exact h.2 1 (by decide)

/-! ## C8: the thumbnail generator -/

/-- The 100×100 bounding-box fit never exceeds 100 in either dimension
(for an image with positive dimensions). -/
theorem resize_dimensions_le (w h : Nat) (hw : 0 < w) (hh : 0 < h) :
    (resize_dimensions w h 100 100).1 ≤ 100 ∧
      (resize_dimensions w h 100 100).2 ≤ 100 := by
  rw [resize_dimensions, if_neg (by omega)]
  by_cases hc : 100 * h ≤ 100 * w
  · rw [if_pos hc]
    have hhw : h ≤ w := Nat.le_of_mul_le_mul_left hc (by omega)
    have h1 : 2 * h * 100 + w < 101 * (2 * w) := by nlinarith
    have h2 : (2 * h * 100 + w) / (2 * w) < 101 :=
      (Nat.div_lt_iff_lt_mul (by omega)).mpr h1
    exact ⟨by simp, max_le (by omega) (by omega)⟩
  · rw [if_neg hc]
    have hwh : w ≤ h := by
      rcases Nat.le_total h w with hle | hle
      · exact absurd (Nat.mul_le_mul_left 100 hle) hc
      · exact hle
    have h1 : 2 * w * 100 + h < 101 * (2 * h) := by nlinarith
    have h2 : (2 * w * 100 + h) / (2 * h) < 101 :=
      (Nat.div_lt_iff_lt_mul (by omega)).mpr h1
    exact ⟨max_le (by omega) (by omega), by simp⟩

/-- Claim C8: on a readable original blob, `make_thumbnail` decodes
using the format guessed from the content, resizes into the 100×100
bounding box (neither resulting dimension exceeds 100) and writes the
encoded result as the thumbnail blob; undecodable bytes fail with
`DecodeError`; and the secondary detection runs only when the guess
itself fails — a decode failure under a successful guess is final. -/
theorem C8_make_thumbnail_contract (env : IoEnv) (lib : ImageLib) (id : Int)
    (fs : FS) (bytes : Bytes) (hread : fs.read (imagePath id) = some bytes) :
    (∀ img, decodeImage lib bytes = some img → 0 < img.width → 0 < img.height →
      env.writeFails (thumbPath id) = false →
      make_thumbnail env lib id fs =
        (.ok (), fs.write (thumbPath id) (lib.encode (imgThumbnail img))) ∧
        (imgThumbnail img).width ≤ 100 ∧ (imgThumbnail img).height ≤ 100) ∧
      (decodeImage lib bytes = none →
        make_thumbnail env lib id fs = (.error .DecodeError, fs)) ∧
      (∀ fmt, lib.guess_format bytes = some fmt →
        lib.load_from_memory_with_format bytes fmt = none →
        make_thumbnail env lib id fs = (.error .DecodeError, fs)) := by
  refine ⟨fun img hdec hw hh henv => ?_, fun hdec => ?_, fun fmt hg hl => ?_⟩
  · constructor
    · simp only [make_thumbnail, hread, hdec, henv, Bool.false_eq_true, if_false]
    · have hb := resize_dimensions_le img.width img.height hw hh
      simp only [imgThumbnail]
      exact hb
  · simp only [make_thumbnail, hread, hdec]
  · have hdec : decodeImage lib bytes = none := by
      simp only [decodeImage, hg, hl]
    simp only [make_thumbnail, hread, hdec]

/-- Witness for C8: with `libConst` every blob decodes to a 200×100
image, so backfilling id 1 writes the encoded 100×50 thumbnail, and
both thumbnail dimensions are at most 100. -/
theorem C8_make_thumbnail_contract_witness :
    make_thumbnail envOk libConst 1 ⟨[("images/1.jpg", [5])]⟩ =
        (.ok (), FS.write ⟨[("images/1.jpg", [5])]⟩ (thumbPath 1) [7, 7]) ∧
      (imgThumbnail ⟨200, 100, 0⟩).width ≤ 100 ∧
      (imgThumbnail ⟨200, 100, 0⟩).height ≤ 100 := by
  have h := (C8_make_thumbnail_contract envOk libConst 1 ⟨[("images/1.jpg", [5])]⟩ [5]
    (by decide)).1 ⟨200, 100, 0⟩ rfl (by decide) (by decide) rfl
  exact ⟨by rw [h.1]; rfl, h.2.1, h.2.2⟩
